import Mathlib

/-!
Verification development for the audiobook text pipeline.

The definitions below are a shallow embedding of the Python sources:
`src/domain/models.py`, `src/segment_grouper.py`, `src/character_registry.py`
and `src/parsers/text_parser.py`.  Python strings are modelled as Lean
`String`s (the inputs of interest are ASCII, so `Char.toLower`,
`Char.isUpper` and the explicit whitespace set below agree with Python's
`str` methods on every string that appears here).  Python `dict`s are
modelled as insertion-ordered association lists, matching CPython's
iteration order.  Fallible Python code is modelled with `Option`.
-/

set_option maxRecDepth 10000

/-- Whitespace characters of Python's `str.strip` / `str.split` / `\s`
(ASCII range; the texts handled here are ASCII). -/
def isPyWs (c : Char) : Bool :=
  c = ' ' || c = '\t' || c = '\n' || c = '\r' || c = '\x0b' || c = '\x0c'

/-- Python `str.strip()` : drop leading and trailing whitespace. -/
def pyStrip (s : String) : String :=
  ⟨((s.data.dropWhile isPyWs).reverse.dropWhile isPyWs).reverse⟩

/-- Python `str.strip(chars)` : drop leading and trailing characters drawn
from the given set. -/
def pyStripChars (set : List Char) (s : String) : String :=
  ⟨((s.data.dropWhile (set.contains ·)).reverse.dropWhile (set.contains ·)).reverse⟩

/-- Python `str.lower()` (ASCII). -/
def pyLower (s : String) : String :=
  ⟨s.data.map Char.toLower⟩

/-- Helper for `pySplitWs`: split a character list on whitespace runs,
dropping empty words, with `acc` the (reversed) word being read. -/
def splitWsAux : List Char → List Char → List String
  | [], [] => []
  | [], acc => [⟨acc.reverse⟩]
  | c :: cs, acc =>
    if isPyWs c then
      match acc with
      | [] => splitWsAux cs []
      | _ => (⟨acc.reverse⟩ : String) :: splitWsAux cs []
    else splitWsAux cs (c :: acc)

/-- Python `str.split()` with no argument: split on whitespace runs and
drop empty words. -/
def pySplitWs (s : String) : List String :=
  splitWsAux s.data []

/-- Python slice `cs[a:b]` on a character list (indices clamp). -/
def pySlice (cs : List Char) (a b : Nat) : List Char :=
  (cs.drop a).take (b - a)

/-- Python `word.capitalize()` : first character uppercased, the rest
lowercased (ASCII). -/
def pyCapitalize (w : String) : String :=
  match w.data with
  | [] => ""
  | c :: rest => ⟨c.toUpper :: rest.map Char.toLower⟩

/-! The domain model, from `src/domain/models.py`. -/

inductive SegmentType where
  | narration
  | dialogue
deriving DecidableEq

/-- A single piece of text (narration or dialogue), from
`src/domain/models.py`. -/
structure Segment where
  text : String
  segment_type : SegmentType
  speaker : Option String := none
deriving DecidableEq

def Segment.is_dialogue (s : Segment) : Bool :=
  s.segment_type = SegmentType.dialogue

def Segment.is_narration (s : Segment) : Bool :=
  s.segment_type = SegmentType.narration

/-- A chapter, from `src/domain/models.py`. -/
structure Chapter where
  number : Int
  title : String
  segments : List Segment
deriving DecidableEq

/-! The segment grouper, from `src/segment_grouper.py`. -/

/-- Embedding of `SegmentGrouper._should_merge`.  The Python dialogue
branch is `seg1.speaker and seg1.speaker.lower() == (seg2.speaker.lower()
if seg2.speaker else None)`: a `None` or empty first speaker is falsy, and
a string never equals `None`. -/
def shouldMerge (seg1 seg2 : Segment) : Bool :=
  if seg1.segment_type ≠ seg2.segment_type then false
  else if seg1.is_dialogue then
    match seg1.speaker with
    | none => false
    | some a =>
      if a = "" then false
      else
        match seg2.speaker with
        | none => false
        | some b => pyLower a = pyLower b
  else
    if (pyStrip seg1.text).length < 50 then true
    else
      match (pyStrip seg2.text).data with
      | [] => false
      | c :: _ => !c.isUpper

/-- Embedding of `SegmentGrouper._merge_text`.  Both branches of the
Python code produce the same space-joined string when both stripped texts
are non-empty, so they are collapsed here. -/
def mergeText (text1 text2 : String) : String :=
  let t1 := pyStrip text1
  let t2 := pyStrip text2
  if t1 ≠ "" then (if t2 ≠ "" then t1 ++ " " ++ t2 else t1) else t2

/-- Attribution words of `SegmentGrouper._filter_short_fragments`. -/
def attributionWords : List String :=
  ["said", "replied", "asked", "cried", "exclaimed",
   "whispered", "shouted", "answered", "returned", "continued",
   "impatiently", "coldly", "warmly", "softly", "loudly"]

/-- Embedding of `SegmentGrouper._filter_short_fragments`. -/
def filterShortFragments : List Segment → List Segment
  | [] => []
  | s :: rest =>
    if s.is_dialogue then s :: filterShortFragments rest
    else
      let text := pyStrip s.text
      if text.length > 30 then s :: filterShortFragments rest
      else
        let words := pySplitWs (pyLower text)
        if !(words.any (fun w => attributionWords.contains w)) then
          s :: filterShortFragments rest
        else if text.length > 15 then s :: filterShortFragments rest
        else filterShortFragments rest

/-- Helper loop of `SegmentGrouper.group_segments`: `cur` is the current
group (a freshly constructed `Segment`), `acc` the groups already
finished. -/
def groupLoop : List Segment → Option Segment → List Segment → List Segment
  | [], cur, acc => acc ++ cur.toList
  | s :: rest, cur, acc =>
    match cur with
    | some g =>
      if shouldMerge g s then
        groupLoop rest (some { g with text := mergeText g.text s.text }) acc
      else
        groupLoop rest (some ⟨s.text, s.segment_type, s.speaker⟩) (acc ++ [g])
    | none => groupLoop rest (some ⟨s.text, s.segment_type, s.speaker⟩) acc

/-- Embedding of `SegmentGrouper.group_segments` (value level). -/
def groupSegments (segments : List Segment) : List Segment :=
  match segments with
  | [] => []
  | _ => filterShortFragments (groupLoop segments none [])

/-! A store-passing embedding of the same `group_segments` code, making
Python object identity explicit so that the frame property (the input
`Segment` objects are never mutated) can be stated.  The store is the
heap of `Segment` objects; a reference is an index into it; `store.set`
is an in-place field update of the referenced object, and appending
allocates a fresh object. -/

def dfltSegment : Segment := ⟨"", SegmentType.narration, none⟩

/-- Heap-level helper loop of `group_segments`: every new group is a
freshly allocated `Segment`; merging mutates only the current (fresh)
group via `store.set`. -/
def groupLoopH (store : List Segment) :
    List Nat → Option Nat → List Nat → List Segment × List Nat
  | [], cur, acc => (store, acc ++ cur.toList)
  | r :: rest, cur, acc =>
    let s := store.getD r dfltSegment
    match cur with
    | some g =>
      let gseg := store.getD g dfltSegment
      if shouldMerge gseg s then
        groupLoopH (store.set g { gseg with text := mergeText gseg.text s.text })
          rest (some g) acc
      else
        groupLoopH (store ++ [⟨s.text, s.segment_type, s.speaker⟩])
          rest (some store.length) (acc ++ [g])
    | none =>
      groupLoopH (store ++ [⟨s.text, s.segment_type, s.speaker⟩])
        rest (some store.length) acc

/-- Heap-level `_filter_short_fragments`: reads the store, selects
references, allocates and mutates nothing. -/
def filterShortFragmentsH (store : List Segment) (refs : List Nat) : List Nat :=
  refs.filter (fun r =>
    let s := store.getD r dfltSegment
    if s.is_dialogue then true
    else
      let text := pyStrip s.text
      if text.length > 30 then true
      else
        let words := pySplitWs (pyLower text)
        if !(words.any (fun w => attributionWords.contains w)) then true
        else decide (text.length > 15))

/-- Heap-level `SegmentGrouper.group_segments`: takes the heap and the
references making up the input list, returns the final heap and the
references of the grouped output. -/
def groupSegmentsH (store : List Segment) (input : List Nat) :
    List Segment × List Nat :=
  match input with
  | [] => (store, [])
  | _ =>
    let res := groupLoopH store input none []
    (res.1, filterShortFragmentsH res.1 res.2)

/-! The character registry, from `src/character_registry.py`. -/

/-- A character in the book, from `src/character_registry.py`. -/
structure Character where
  canonical_name : String
  aliases : List String
  context : String
  first_seen_chapter : Int
deriving DecidableEq

/-- Parsed JSON values, the result of `json.loads` on the AI response.
Objects keep key order (CPython dicts are insertion ordered). -/
inductive JValue where
  | null
  | bool (b : Bool)
  | num (n : Int)
  | str (s : String)
  | arr (xs : List JValue)
  | obj (fields : List (String × JValue))

/-- Python `dict.get(key)` on a JSON object's field list. -/
def jGet (fields : List (String × JValue)) (key : String) : Option JValue :=
  fields.lookup key

/-- Decode a list of JSON strings (any other shape is an ill-typed
payload, see `updateEntry`). -/
def decodeStrs : List JValue → Option (List String)
  | [] => some []
  | JValue.str s :: rest => (decodeStrs rest).map (fun t => s :: t)
  | _ => none

/-- Decode a JSON array of strings to a `List String` (any other shape is
an ill-typed payload, see `updateEntry`). -/
def decodeStrList : JValue → Option (List String)
  | JValue.arr xs => decodeStrs xs
  | _ => none

/-- Python truthiness of a JSON value (`if data.get('context'): ...`). -/
def jTruthy : JValue → Bool
  | JValue.null => false
  | JValue.bool b => b
  | JValue.num n => n ≠ 0
  | JValue.str s => s ≠ ""
  | JValue.arr xs => !xs.isEmpty
  | JValue.obj fs => !fs.isEmpty

/-- Embedding of `CharacterRegistry.get_canonical_name`: first stored
entry whose canonical name or one of whose aliases equals the descriptor
case-insensitively. -/
def getCanonicalName (chars : List (String × Character)) (descriptor : String) :
    Option String :=
  let dl := pyLower descriptor
  chars.findSome? (fun p =>
    if pyLower p.1 = dl then some p.1
    else if p.2.aliases.any (fun a => pyLower a = dl) then some p.1
    else none)

/-- Embedding of `CharacterRegistry._normalize_name`:
`' '.join(word.capitalize() for word in name.split())`. -/
def normalizeName (name : String) : String :=
  String.intercalate " " ((pySplitWs name).map pyCapitalize)

/-- One iteration of the loop in `_update_from_ai_response`, for one
`(name, data)` entry of the AI's returned registry.  `none` models a
Python exception raised inside the loop body (e.g. `data.get` on a
non-dict).  Payload values of the wrong JSON type would make Python
store ill-typed `Character` fields (or raise later); they are modelled
as an error since they leave the typed state space.  In the
existing-character branch Python builds `list(set(old) | set(new))`,
whose iteration order CPython leaves unspecified; the model keeps first
occurrences in order — no claim depends on that order. -/
def updateEntry (curCh : Int) (chars : List (String × Character))
    (name : String) (data : JValue) : Option (List (String × Character)) :=
  match data with
  | JValue.obj dfields =>
    if chars.any (fun p => p.1 = name) then
      match (match jGet dfields "aliases" with
             | none => some []
             | some v => decodeStrList v) with
      | none => none
      | some newAliases =>
        let ctx := jGet dfields "context"
        match ctx with
        | some (JValue.str cs) =>
          some (chars.map (fun p =>
            if p.1 = name then
              (p.1, { p.2 with
                aliases := (p.2.aliases ++ newAliases).dedup,
                context := if cs ≠ "" then cs else p.2.context })
            else p))
        | none =>
          some (chars.map (fun p =>
            if p.1 = name then
              (p.1, { p.2 with aliases := (p.2.aliases ++ newAliases).dedup })
            else p))
        | some v =>
          if jTruthy v then none
          else
            some (chars.map (fun p =>
              if p.1 = name then
                (p.1, { p.2 with aliases := (p.2.aliases ++ newAliases).dedup })
              else p))
    else
      match (match jGet dfields "aliases" with
             | none => some [name]
             | some v => decodeStrList v) with
      | none => none
      | some aliases =>
        match (match jGet dfields "context" with
               | none => some ""
               | some (JValue.str cs) => some cs
               | some _ => none) with
        | none => none
        | some context =>
          match (match jGet dfields "first_seen_chapter" with
                 | none => some curCh
                 | some (JValue.num n) => some n
                 | some _ => none) with
          | none => none
          | some fsc =>
            some (chars ++ [(name, ⟨name, aliases, context, fsc⟩)])
  | _ => none

/-- The `for name, data in registry_data.items()` loop of
`_update_from_ai_response`.  An exception part-way through the loop
leaves the earlier iterations' mutations in place, so the partial state
is returned together with `false`. -/
def updateEntries (curCh : Int) :
    List (String × JValue) → List (String × Character) →
    List (String × Character) × Bool
  | [], chars => (chars, true)
  | (name, data) :: rest, chars =>
    match updateEntry curCh chars name data with
    | some chars' => updateEntries curCh rest chars'
    | none => (chars, false)

/-- Embedding of `CharacterRegistry._update_from_ai_response`.  The
second component is `false` when Python would raise (caught by the
caller's `except`); the first component is the registry state at that
point, including any partial updates. -/
def updateFromAI (curCh : Int) (result : JValue)
    (chars : List (String × Character)) : List (String × Character) × Bool :=
  match result with
  | JValue.obj rfields =>
    match (jGet rfields "registry").getD (JValue.obj []) with
    | JValue.obj entries => updateEntries curCh entries chars
    | _ => (chars, false)
  | _ => (chars, false)

/-- The slow path of `identify_speaker` (everything after the fast-path
lookup).  The AI collaborator is modelled by its observable outcome:
`none` = no provider configured, `some (Except.error ())` =
`ai_provider.generate` raised, `some (Except.ok none)` = the response was
not JSON (`json.loads` raised), `some (Except.ok (some j))` = the
response parsed to `j`.  The returned triple is (returned value, new
registry state, whether `generate` was invoked); the prompt built by
`_build_identification_prompt` does not influence the registry state or
the return value and is not modelled. -/
def identifySlow (ai : Option (Except Unit (Option JValue)))
    (chars : List (String × Character)) (curCh : Int) (descriptor : String) :
    JValue × List (String × Character) × Bool :=
  match ai with
  | none => (JValue.str (normalizeName descriptor), chars, false)
  | some (Except.error _) => (JValue.str (normalizeName descriptor), chars, true)
  | some (Except.ok none) => (JValue.str (normalizeName descriptor), chars, true)
  | some (Except.ok (some j)) =>
    let res := updateFromAI curCh j chars
    if res.2 then
      match j with
      | JValue.obj fs =>
        ((jGet fs "speaker").getD (JValue.str (normalizeName descriptor)),
         res.1, true)
      | _ => (JValue.str (normalizeName descriptor), res.1, true)
    else (JValue.str (normalizeName descriptor), res.1, true)

/-- Embedding of `CharacterRegistry.identify_speaker`.  The Python fast
path is `if canonical:` — a truthiness test, so an empty canonical name
falls through to the slow path.  The function is total: the `except`
clause of the source catches every exception of the try block, which is
mirrored by `identifySlow` always returning a value. -/
def identifySpeaker (ai : Option (Except Unit (Option JValue)))
    (chars : List (String × Character)) (curCh : Int) (descriptor : String) :
    JValue × List (String × Character) × Bool :=
  match getCanonicalName chars descriptor with
  | some c =>
    if c ≠ "" then (JValue.str c, chars, false)
    else identifySlow ai chars curCh descriptor
  | none => identifySlow ai chars curCh descriptor

/-- Embedding of `Character.to_dict` (`dataclasses.asdict`): field order
is declaration order. -/
def characterToDict (c : Character) : JValue :=
  JValue.obj
    [("canonical_name", JValue.str c.canonical_name),
     ("aliases", JValue.arr (c.aliases.map JValue.str)),
     ("context", JValue.str c.context),
     ("first_seen_chapter", JValue.num c.first_seen_chapter)]

/-- Embedding of `CharacterRegistry.to_dict`. -/
def registryToDict (chars : List (String × Character)) :
    List (String × JValue) :=
  chars.map (fun p => (p.1, characterToDict p.2))

/-- Inverse of `Character(**char_data)` as used by
`CharacterRegistry.from_dict`: requires exactly the four dataclass field
names (missing or extra keyword arguments raise `TypeError` in Python),
decoded at their declared types (Python would accept ill-typed values
and store them unchecked; those payloads are outside the typed model). -/
def characterFromDict (j : JValue) : Option Character :=
  match j with
  | JValue.obj fs =>
    match jGet fs "canonical_name" with
    | some (JValue.str cn) =>
      match (jGet fs "aliases").bind decodeStrList with
      | some al =>
        match jGet fs "context" with
        | some (JValue.str cx) =>
          match jGet fs "first_seen_chapter" with
          | some (JValue.num fc) =>
            if fs.length = 4 then some ⟨cn, al, cx, fc⟩ else none
          | _ => none
        | _ => none
      | none => none
    | _ => none
  | _ => none

/-- Embedding of `CharacterRegistry.from_dict` (the dict comprehension
`{name: Character(**char_data) for name, char_data in data.items()}`). -/
def registryFromDict : List (String × JValue) →
    Option (List (String × Character))
  | [] => some []
  | (name, j) :: rest =>
    match characterFromDict j with
    | some c => (registryFromDict rest).map (fun t => (name, c) :: t)
    | none => none

/-! The text parser, from `src/parsers/text_parser.py`.  The attribution
and chapter regexes are embedded through a small backtracking matcher
whose preference order matches Python's `re` module: alternatives
left-to-right, `*`/`+` greedy, `*?` lazy, with backtracking. -/

/-- Regular-expression ASTs covering the patterns of `text_parser.py`.
`eol` is the MULTILINE `$` (end of input or before a newline). -/
inductive RE where
  | eps
  | pred (p : Char → Bool)
  | seq (a b : RE)
  | alt (a b : RE)
  | star (a : RE)
  | starL (a : RE)
  | group (n : Nat) (a : RE)
  | eol

/-- Backtracking matcher in continuation-passing style.  `cs` is the
rest of the subject, `i` its absolute position, `g` the captures
`(group, start, end)` recorded so far, `k` the continuation.  `alt`
prefers its left arm, `star` is greedy and `starL` lazy; iterations that
consume nothing are cut off, as in CPython's `sre`.  The fuel (spent one
unit per call, so that the recursion is structural and kernel-reducible)
only serves termination: callers supply enough that it is never
exhausted on the patterns at hand. -/
def reM : Nat → RE → List Char → Nat → List (Nat × Nat × Nat) →
    (List Char → Nat → List (Nat × Nat × Nat) →
      Option (Nat × List (Nat × Nat × Nat))) →
    Option (Nat × List (Nat × Nat × Nat))
  | 0, _, _, _, _, _ => none
  | fuel + 1, r, cs, i, g, k =>
    match r with
    | RE.eps => k cs i g
    | RE.eol =>
      match cs with
      | [] => k cs i g
      | c :: _ => if c = '\n' then k cs i g else none
    | RE.pred p =>
      match cs with
      | [] => none
      | c :: rest => if p c then k rest (i + 1) g else none
    | RE.seq a b => reM fuel a cs i g (fun cs' i' g' => reM fuel b cs' i' g' k)
    | RE.alt a b =>
      match reM fuel a cs i g k with
      | some res => some res
      | none => reM fuel b cs i g k
    | RE.group n a =>
      reM fuel a cs i g (fun cs' i' g' => k cs' i' ((n, i, i') :: g'))
    | RE.star a =>
      match reM fuel a cs i g
          (fun cs' i' g' =>
            if i < i' then reM fuel (RE.star a) cs' i' g' k else none) with
      | some res => some res
      | none => k cs i g
    | RE.starL a =>
      match k cs i g with
      | some res => some res
      | none =>
        reM fuel a cs i g
          (fun cs' i' g' =>
            if i < i' then reM fuel (RE.starL a) cs' i' g' k else none)

/-- Anchored match attempt at absolute position `i`; `cs` is the subject
with its first `i` characters already dropped.  Returns the match end and
the captures. -/
def reMatchAt (r : RE) (cs : List Char) (i : Nat) :
    Option (Nat × List (Nat × Nat × Nat)) :=
  reM ((cs.length + 4) * 128) r cs i [] (fun _ i' g => some (i', g))

/-- Python `re.search`: the leftmost position with an anchored match
wins.  Returns (start, end, captures), positions absolute. -/
def reSearchAux (r : RE) : List Char → Nat →
    Option (Nat × Nat × List (Nat × Nat × Nat))
  | cs, i =>
    match reMatchAt r cs i with
    | some (e, g) => some (i, e, g)
    | none =>
      match cs with
      | [] => none
      | _ :: rest => reSearchAux r rest (i + 1)

def reSearch (r : RE) (cs : List Char) :
    Option (Nat × Nat × List (Nat × Nat × Nat)) :=
  reSearchAux r cs 0

/-- Latest recorded span of a capture group. -/
def capFind : List (Nat × Nat × Nat) → Nat → Option (Nat × Nat)
  | [], _ => none
  | (m, s, e) :: rest, n => if m = n then some (s, e) else capFind rest n

/-- Text of a capture group (`match.group(n)`). -/
def capStr (txt : List Char) (g : List (Nat × Nat × Nat)) (n : Nat) : String :=
  match capFind g n with
  | some (s, e) => ⟨pySlice txt s e⟩
  | none => ""

/-- One character, case-insensitively (`re.IGNORECASE`). -/
def chCI (c : Char) : RE := RE.pred (fun d => d.toLower = c.toLower)

/-- A literal string, case-insensitively. -/
def litCI (s : String) : RE := (s.data.map chCI).foldr RE.seq RE.eps

def wsP : RE := RE.pred isPyWs

/-- Under `re.IGNORECASE`, `[A-Z]` and `[a-z]` both match any ASCII
letter. -/
def alphaP : RE := RE.pred Char.isAlpha

def plusRE (a : RE) : RE := RE.seq a (RE.star a)

def optRE (a : RE) : RE := RE.alt a RE.eps

def altList : List RE → RE
  | [] => RE.pred (fun _ => false)
  | [a] => a
  | a :: rest => RE.alt a (altList rest)

/-- The verb alternation shared by the attribution patterns, in source
order. -/
def verbRE : RE :=
  altList [litCI "said", litCI "replied", litCI "cried", litCI "asked",
    litCI "exclaimed", litCI "whispered", litCI "shouted", litCI "answered",
    litCI "returned", litCI "continued"]

/-- The optional title alternation `(?:Mr\.|Mrs\.|Miss|Ms\.|Dr\.|Sir|Lady)`. -/
def titleRE : RE :=
  altList [litCI "Mr.", litCI "Mrs.", litCI "Miss", litCI "Ms.",
    litCI "Dr.", litCI "Sir", litCI "Lady"]

/-- Name part of patterns 1..3:
`(?:title)?\s*[A-Z][a-z]+(?:\s+[A-Z][a-z]+)*` under IGNORECASE. -/
def nameRE : RE :=
  RE.seq (optRE titleRE)
    (RE.seq (RE.star wsP)
      (RE.seq alphaP
        (RE.seq (plusRE alphaP)
          (RE.star (RE.seq (plusRE wsP) (RE.seq alphaP (plusRE alphaP)))))))

def punctClass : RE := RE.pred (fun c => c = ',' || c = ';' || c = '.')

/-- Pattern 1: `(?:verbs)\s+(name)(?:\s+to\s)`. -/
def attrPattern1 : RE :=
  RE.seq verbRE
    (RE.seq (plusRE wsP)
      (RE.seq (RE.group 1 nameRE)
        (RE.seq (plusRE wsP) (RE.seq (litCI "to") wsP))))

/-- Pattern 2: `(?:verbs)\s+(name)[,;.]`. -/
def attrPattern2 : RE :=
  RE.seq verbRE
    (RE.seq (plusRE wsP) (RE.seq (RE.group 1 nameRE) punctClass))

/-- Pattern 3: `(name)\s+(?:verbs)`. -/
def attrPattern3 : RE :=
  RE.seq (RE.group 1 nameRE) (RE.seq (plusRE wsP) verbRE)

/-- Pattern 4: `(?:verbs)\s+(his|her)\s+([a-z]+)` under IGNORECASE. -/
def attrPattern4 : RE :=
  RE.seq verbRE
    (RE.seq (plusRE wsP)
      (RE.seq (RE.group 1 (RE.alt (litCI "his") (litCI "her")))
        (RE.seq (plusRE wsP) (RE.group 2 (plusRE alphaP)))))

/-- The `for regex in self.attribution_regex` loop: the first pattern in
source order whose search succeeds anywhere in the window wins.  The
speaker is `match.group(match.lastindex)`: group 1 for patterns 1..3,
group 2 for pattern 4.  Returns the raw captured speaker and the match
end (relative to the window). -/
def attributionSearch (txt : List Char) : Option (String × Nat) :=
  match reSearch attrPattern1 txt with
  | some (_, e, g) => some (capStr txt g 1, e)
  | none =>
    match reSearch attrPattern2 txt with
    | some (_, e, g) => some (capStr txt g 1, e)
    | none =>
      match reSearch attrPattern3 txt with
      | some (_, e, g) => some (capStr txt g 1, e)
      | none =>
        match reSearch attrPattern4 txt with
        | some (_, e, g) => some (capStr txt g 2, e)
        | none => none

def honorifics : List String := ["Mr.", "Mrs.", "Miss", "Ms.", "Dr.", "Sir", "Lady"]

/-- Case-insensitive prefix test (pattern first). -/
def startsWithCI : List Char → List Char → Bool
  | [], _ => true
  | _ :: _, [] => false
  | p :: ps, c :: cs => p.toLower = c.toLower && startsWithCI ps cs

/-- Embedding of the substitution
`re.sub(r'^(Mr\.|Mrs\.|Miss|Ms\.|Dr\.|Sir|Lady)\s+', '', speaker,
re.IGNORECASE)` in `_normalize_speaker_name`: remove one leading
honorific together with the non-empty greedy whitespace that must follow
it (if no whitespace follows, the pattern does not match and the string
is returned unchanged). -/
def stripHonorific (s : String) : String :=
  match honorifics.findSome? (fun h =>
    if startsWithCI h.data s.data then
      match s.data.drop h.length with
      | c :: rest =>
        if isPyWs c then some (⟨(c :: rest).dropWhile isPyWs⟩ : String)
        else none
      | [] => none
    else none) with
  | some r => r
  | none => s

/-- Embedding of `TextBookParser._normalize_speaker_name`. -/
def normalizeSpeakerName (speaker : String) : String :=
  let normalized := pyStrip (stripHonorific speaker)
  if normalized = "" then pyStrip speaker
  else
    match pySplitWs normalized with
    | [] => normalized
    | [_] => normalized
    | parts => pyStrip (parts.getLastD "")

/-- Embedding of `TextBookParser._extract_speaker`: search the 100-char
window after the dialogue, then the 100-char window before it.  Returns
the normalized speaker (if any) and the attribution end position. -/
def extractSpeaker (cs : List Char) (dialogueStart dialogueEnd : Nat) :
    Option String × Nat :=
  let afterText := pySlice cs dialogueEnd (dialogueEnd + 100)
  match attributionSearch afterText with
  | some (speaker, mEnd) =>
    (some (normalizeSpeakerName (pyStrip speaker)), dialogueEnd + mEnd)
  | none =>
    let beforeText := pySlice cs (dialogueStart - 100) dialogueStart
    match attributionSearch beforeText with
    | some (speaker, _) =>
      (some (normalizeSpeakerName (pyStrip speaker)), dialogueEnd)
    | none => (none, dialogueEnd)

def qLeft : Char := Char.ofNat 0x201C

def qRight : Char := Char.ofNat 0x201D

def isQuoteOpen (c : Char) : Bool := c = '"' || c = qLeft

def isQuoteAny (c : Char) : Bool := c = '"' || c = qLeft || c = qRight

def isQuoteClose (c : Char) : Bool := c = '"' || c = qRight

structure DialogueMatch where
  start : Nat
  stop : Nat
  content : String
deriving DecidableEq

/-- `finditer` of the dialogue pattern `["“]([^"“”]+)["”]`:
at an opening quote the greedy non-quote content runs to the next quote
character, which must close; on failure the scan resumes one position
later, on success after the match (non-overlapping).  The fuel argument
(callers pass `cs.length + 1`) only serves structural termination: every
step consumes at least one character. -/
def findDialogues : Nat → List Char → Nat → List DialogueMatch
  | 0, _, _ => []
  | _, [], _ => []
  | fuel + 1, c :: rest, i =>
    if isQuoteOpen c then
      let content := rest.takeWhile (fun d => !isQuoteAny d)
      match rest.drop content.length with
      | d :: rest2 =>
        if !content.isEmpty && isQuoteClose d then
          ⟨i, i + content.length + 2, ⟨content⟩⟩ ::
            findDialogues fuel rest2 (i + content.length + 2)
        else findDialogues fuel rest (i + 1)
      | [] => findDialogues fuel rest (i + 1)
    else findDialogues fuel rest (i + 1)

/-- Embedding of `TextBookParser._parse_paragraph`. -/
def parseParagraph (paragraph : String) : List Segment :=
  let cs := paragraph.data
  let ms := findDialogues (cs.length + 1) cs 0
  let step := fun (st : List Segment × Nat) (m : DialogueMatch) =>
    let segs0 := st.1
    let currentPos := st.2
    let segs1 :=
      if currentPos < m.start then
        let narr := pyStrip ⟨pySlice cs currentPos m.start⟩
        if narr ≠ "" then segs0 ++ [⟨narr, SegmentType.narration, none⟩]
        else segs0
      else segs0
    let sp := extractSpeaker cs m.start m.stop
    let segs2 := segs1 ++ [⟨m.content, SegmentType.dialogue, sp.1⟩]
    (segs2, if m.stop < sp.2 then sp.2 else m.stop)
  let res := ms.foldl step ([], 0)
  let segs :=
    if res.2 < cs.length then
      let narr := pyStrip ⟨pySlice cs res.2 cs.length⟩
      if narr ≠ "" then res.1 ++ [⟨narr, SegmentType.narration, none⟩]
      else res.1
    else res.1
  if segs.isEmpty then [⟨paragraph, SegmentType.narration, none⟩] else segs

/-- Characters of the class `[\]\s]`. -/
def isBrWs (c : Char) : Bool := c = ']' || isPyWs c

/-- Roman-numeral class `[IVXLCDM]` under IGNORECASE. -/
def romanClass : RE := RE.pred (fun c => "ivxlcdm".data.contains c.toLower)

def digitClass : RE := RE.pred Char.isDigit

/-- The chapter heading pattern
`^Chapter\s+([IVXLCDM]+|\d+)\.[\]\s]*$` (IGNORECASE, MULTILINE) minus its
`^` anchor, which `chapterMatches` applies by only trying line starts. -/
def chapterRE : RE :=
  RE.seq (litCI "Chapter")
    (RE.seq (plusRE wsP)
      (RE.seq (RE.group 1 (RE.alt (plusRE romanClass) (plusRE digitClass)))
        (RE.seq (RE.pred (fun c => c = '.'))
          (RE.seq (RE.star (RE.pred isBrWs)) RE.eol))))

structure ChapterMatch where
  start : Nat
  stop : Nat
  numeral : String
deriving DecidableEq

/-- Line starts: position 0 and every position following a newline. -/
def lineStarts (cs : List Char) : List Nat :=
  0 :: ((List.range cs.length).filter (fun i => cs.getD i ' ' = '\n')).map (· + 1)

/-- `finditer` of the MULTILINE chapter pattern: one anchored attempt at
every line start.  Matches cannot overlap — past the heading the pattern
consumes only whitespace and `]`, which cannot begin a new `Chapter`
heading — so this equals `re.finditer`'s non-overlapping scan. -/
def chapterMatches (cs : List Char) : List ChapterMatch :=
  (lineStarts cs).filterMap (fun i =>
    match reMatchAt chapterRE (cs.drop i) i with
    | some (e, g) => some ⟨i, e, capStr cs g 1⟩
    | none => none)

/-- Decimal value of a digit string (`int(roman)`). -/
def digitsVal (cs : List Char) : Nat :=
  cs.foldl (fun acc c => acc * 10 + (c.toNat - '0'.toNat)) 0

def romanMap (c : Char) : Int :=
  if c = 'I' then 1 else if c = 'V' then 5 else if c = 'X' then 10
  else if c = 'L' then 50 else if c = 'C' then 100 else if c = 'D' then 500
  else if c = 'M' then 1000 else 0

/-- Embedding of `TextBookParser._roman_to_int`. -/
def romanToInt (roman : String) : Int :=
  if roman.data ≠ [] ∧ roman.data.all Char.isDigit then
    (digitsVal roman.data : Int)
  else
    let step := fun (st : Int × Int) (c : Char) =>
      let v := romanMap c.toUpper
      (if v < st.2 then st.1 - v else st.1 + v, v)
    (roman.data.reverse.foldl step (0, 0)).1

/-- Helper for `pySplitSep`: split on a non-empty separator,
left-to-right, non-overlapping, keeping empty pieces; `acc` is the
(reversed) piece being read and the fuel (callers pass the subject's
length plus one) only serves structural termination. -/
def pySplitSepAux (sep : List Char) : Nat → List Char → List Char →
    List String
  | 0, acc, _ => [⟨acc.reverse⟩]
  | fuel + 1, acc, cs =>
    if sep.isPrefixOf cs then
      (⟨acc.reverse⟩ : String) :: pySplitSepAux sep fuel [] (cs.drop sep.length)
    else
      match cs with
      | [] => [⟨acc.reverse⟩]
      | c :: rest => pySplitSepAux sep fuel (c :: acc) rest

/-- Python `str.split(sep)` with a non-empty separator. -/
def pySplitSep (sep : String) (s : String) : List String :=
  pySplitSepAux sep.data (s.data.length + 1) [] s.data

/-- Python `str.startswith(p)`. -/
def pyStartsWith (s p : String) : Bool :=
  p.data.isPrefixOf s.data

/-- Embedding of `TextBookParser._parse_chapter_content`. -/
def parseChapterContent (content : String) (chapterNum : Int)
    (title : String) : Chapter :=
  let paragraphs :=
    ((pySplitSep "\n\n" content).map pyStrip).filter (fun p => p ≠ "")
  let segs := paragraphs.foldl (fun acc p =>
    if pyStartsWith p "[Illustration" || pyStartsWith p "_Copyright" then acc
    else acc ++ parseParagraph p) []
  ⟨chapterNum, title, segs⟩

/-- Python slice `content[a:b]` on a string. -/
def strSlice (content : String) (a b : Nat) : String :=
  ⟨pySlice content.data a b⟩

/-- The `for i, match in enumerate(chapter_matches)` loop of
`_parse_chapters`: each chapter's content runs from its heading's end to
the next heading's start (or the end of the content). -/
def chaptersFromMatches (content : String) :
    List ChapterMatch → List Chapter
  | [] => []
  | m :: rest =>
    let endPos :=
      match rest with
      | m2 :: _ => m2.start
      | [] => content.length
    parseChapterContent (strSlice content m.stop endPos) (romanToInt m.numeral)
      ("Chapter " ++ m.numeral) :: chaptersFromMatches content rest

/-- Embedding of `TextBookParser._parse_chapters`. -/
def parseChapters (content : String) : List Chapter :=
  match chapterMatches content.data with
  | [] => [parseChapterContent content 1 "Chapter I"]
  | ms => chaptersFromMatches content ms

/-- Any character but a newline (`.` without DOTALL). -/
def nonNl : RE := RE.pred (fun c => c ≠ '\n')

/-- Marker 1 of `_find_content_start`: `\*\*\* START OF .*? \*\*\*`. -/
def startMarkerRE : RE :=
  RE.seq (litCI "*** START OF ") (RE.seq (RE.starL nonNl) (litCI " ***"))

/-- Markers 2 and 3 of `_find_content_start`: `Chapter I\.?[\]\s]` —
they coincide under IGNORECASE and are kept in source order. -/
def chapterIMarkerRE : RE :=
  RE.seq (litCI "Chapter I")
    (RE.seq (optRE (RE.pred (fun c => c = '.'))) (RE.pred isBrWs))

/-- Embedding of `TextBookParser._find_content_start`. -/
def findContentStart (content : String) : Nat :=
  match reSearch startMarkerRE content.data with
  | some (s, _, _) => s
  | none =>
    match reSearch chapterIMarkerRE content.data with
    | some (s, _, _) => s
    | none =>
      match reSearch chapterIMarkerRE content.data with
      | some (s, _, _) => s
      | none => 0

/-- The chapter-splitting pipeline of `TextBookParser.parse` (after
metadata extraction): locate the content start, slice, split chapters. -/
def parseBookChapters (raw : String) : List Chapter :=
  parseChapters (strSlice raw (findContentStart raw) raw.length)

/-! Definitions written from the claims' words (for comparison with the
embedded code), and concrete inputs used by the evaluations below. -/

/-- Keep-predicate stated from the amended fragment-filtering claim: a
Narration segment is dropped iff its trimmed text is at most 30
characters long, contains at least one attribution-verb word, and does
not exceed 15 characters; Dialogue segments are always kept. -/
def specKeepFragment (s : Segment) : Bool :=
  s.is_dialogue ||
    !(((pyStrip s.text).length ≤ 30 : Bool) &&
      (pySplitWs (pyLower (pyStrip s.text))).any
        (fun w => attributionWords.contains w) &&
      ((pyStrip s.text).length ≤ 15 : Bool))

/-- The fast-path hypothesis of the registry claim: the descriptor
case-insensitively equals the canonical name, or one of the aliases, of
a stored entry. -/
def matchesEntry (d : String) (p : String × Character) : Prop :=
  pyLower p.1 = pyLower d ∨ ∃ a ∈ p.2.aliases, pyLower a = pyLower d

/-- A parsed AI response missing the expected fields: not a JSON object,
or an object carrying neither a `speaker` nor a `registry` key. -/
def lacksExpectedFields : JValue → Prop
  | JValue.obj fs => fs.lookup "speaker" = none ∧ fs.lookup "registry" = none
  | _ => True

/-- The punctuation set `.,;:!?"'-` of the text-parser test
`test_empty_or_whitespace_dialogue_filtered` (the double quote and the
apostrophe written by code point). -/
def punctuationSet : List Char :=
  ['.', ',', ';', ':', '!', '?', Char.ofNat 34, Char.ofNat 39, '-']

/-- Paragraph of the parser's own test `test_parse_paragraph_with_dialogue`. -/
def c1Paragraph : String :=
  "He walked in. \"Hello there,\" said John. She smiled."

/-- Paragraph of the parser's own test
`test_empty_or_whitespace_dialogue_filtered`. -/
def c2Paragraph : String :=
  "Text before. \"    ,\" said someone, \"actual dialogue here.\""

/-- A raw book text whose located content start (position 0: no marker
matches) is followed by a preface paragraph and then the first chapter
heading. -/
def c7BookText : String := "My preface.\n\nChapter 1.\n\nBody text."

/-- The AI response used against the registry claim: valid JSON with a
`registry` field but no `speaker` field. -/
def c3AIResponse : JValue :=
  JValue.obj [("registry", JValue.obj [("Mrs. Bennet", JValue.obj
    [("aliases", JValue.arr [JValue.str "his wife"]),
     ("context", JValue.str "Mother"),
     ("first_seen_chapter", JValue.num 1)])])]

/-- A one-entry registry state used in witnesses. -/
def bennetRegistry : List (String × Character) :=
  [("Mrs. Bennet", ⟨"Mrs. Bennet", ["his wife"], "Mother", 1⟩)]

/-- Substring test on character lists (used to state that a phrase
appears in no emitted segment). -/
def listIsInfixOf (p : List Char) : List Char → Bool
  | [] => p.isEmpty
  | c :: rest => p.isPrefixOf (c :: rest) || listIsInfixOf p rest

/-! Theorems. -/

/-- Claim C5, counterexample: the 11-character narration fragment
`he said yes` does not consist solely of attribution-verb words, so by
the claim it must be kept, yet the second pass drops it (the code tests
`any`, not `all`). -/
theorem c5_counterexample :
    filterShortFragments [⟨"he said yes", SegmentType.narration, none⟩] = [] ∧
    (pySplitWs (pyLower (pyStrip "he said yes"))).all
        (fun w => attributionWords.contains w) = false ∧
    (pyStrip "he said yes").length ≤ 30 := by
  refine ⟨by decide, by decide, by decide⟩

/-- Claim C5, amended: in the second (fragment-filtering) pass a
Narration segment is dropped iff its trimmed text is at most 30
characters, CONTAINS AT LEAST ONE attribution-verb word
(said/replied/asked/cried/exclaimed/whispered/shouted/answered/returned/
continued, impatiently/coldly/warmly/softly/loudly), and does not exceed
15 characters; Dialogue segments are never dropped by this pass. -/
theorem c5_amended (l : List Segment) :
    filterShortFragments l = l.filter specKeepFragment := by
  induction l with
  | nil => rfl
  | cons s rest ih =>
    simp only [filterShortFragments, List.filter_cons, specKeepFragment]
    by_cases hd : s.is_dialogue = true
    · simp [hd, ih]
    · simp only [Bool.not_eq_true] at hd
      simp only [hd, Bool.false_or]
      by_cases h30 : (pyStrip s.text).length > 30
      · have h15 : ¬ (pyStrip s.text).length ≤ 15 := by omega
        have h30' : ¬ (pyStrip s.text).length ≤ 30 := by omega
        simp [h30, h30', ih]
      · by_cases hw : (pySplitWs (pyLower (pyStrip s.text))).any
            (fun w => attributionWords.contains w) = true
        · by_cases h15 : (pyStrip s.text).length > 15
          · have h15' : ¬ (pyStrip s.text).length ≤ 15 := by omega
            simp [h30, hw, h15, h15', ih]
          · have h15' : (pyStrip s.text).length ≤ 15 := by omega
            have h30' : (pyStrip s.text).length ≤ 30 := by omega
            simp [h30, hw, h15, h15', h30', ih]
        · simp only [Bool.not_eq_true] at hw
          have h30' : ¬ (30 : Nat) < (pyStrip s.text).length := by omega
          have hw' : ∀ x ∈ pySplitWs (pyLower (pyStrip s.text)),
              x ∉ attributionWords := by
            simpa [List.any_eq_true] using hw
          simp only [h30', hw, ih, if_false, Bool.false_eq_true]
          simp

/-- Claim C6, counterexample: two adjacent Dialogue segments whose
speakers are both non-null (`some ""`) and case-insensitively equal are
NOT merged (Python's truthiness test rejects the empty speaker), so
`group_segments` returns two segments where the claim requires one. -/
theorem c6_counterexample :
    (groupSegments [⟨"a", SegmentType.dialogue, some ""⟩,
                    ⟨"b", SegmentType.dialogue, some ""⟩]).length = 2 ∧
    (some "" : Option String) ≠ none ∧ pyLower "" = pyLower "" := by
  refine ⟨by decide, by decide, rfl⟩

/-- Claim C6, amended: two adjacent segments merge only when they have
the same type; two consecutive Dialogue segments merge into one segment
with space-joined (stripped) text exactly when both speakers are
non-null, the first is NON-EMPTY, and they are case-insensitively equal;
Dialogue segments with differing speakers, or with a null or empty
speaker on either side, never merge with anything. -/
theorem c6_amended :
    (∀ s1 s2 : Segment, shouldMerge s1 s2 = true →
      s1.segment_type = s2.segment_type) ∧
    (∀ s1 s2 : Segment, s1.segment_type = SegmentType.dialogue →
      s2.segment_type = SegmentType.dialogue →
      (shouldMerge s1 s2 = true ↔
        ∃ a b, s1.speaker = some a ∧ s2.speaker = some b ∧ a ≠ "" ∧
          pyLower a = pyLower b)) ∧
    (∀ t1 t2 a b, a ≠ "" → pyLower a = pyLower b →
      groupSegments [⟨t1, SegmentType.dialogue, some a⟩,
                     ⟨t2, SegmentType.dialogue, some b⟩] =
        [⟨mergeText t1 t2, SegmentType.dialogue, some a⟩]) ∧
    (∀ t1 t2 sp1 sp2,
      shouldMerge ⟨t1, SegmentType.dialogue, sp1⟩
          ⟨t2, SegmentType.dialogue, sp2⟩ = false →
      groupSegments [⟨t1, SegmentType.dialogue, sp1⟩,
                     ⟨t2, SegmentType.dialogue, sp2⟩] =
        [⟨t1, SegmentType.dialogue, sp1⟩, ⟨t2, SegmentType.dialogue, sp2⟩]) := by
  have htype : ∀ s1 s2 : Segment, shouldMerge s1 s2 = true →
      s1.segment_type = s2.segment_type := by
    intro s1 s2 h
    by_cases he : s1.segment_type = s2.segment_type
    · exact he
    · rw [shouldMerge, if_pos he] at h
      exact absurd h (by simp)
  have hdiag : ∀ s1 s2 : Segment, s1.segment_type = SegmentType.dialogue →
      s2.segment_type = SegmentType.dialogue →
      (shouldMerge s1 s2 = true ↔
        ∃ a b, s1.speaker = some a ∧ s2.speaker = some b ∧ a ≠ "" ∧
          pyLower a = pyLower b) := by
    intro s1 s2 h1 h2
    have hd : s1.is_dialogue = true := by
      simp [Segment.is_dialogue, h1]
    rw [shouldMerge, if_neg (by rw [h1, h2]; simp), if_pos hd]
    cases hs1 : s1.speaker with
    | none => simp [hs1]
    | some a =>
      cases hs2 : s2.speaker with
      | none =>
        by_cases ha : a = "" <;> simp [hs1, hs2, ha]
      | some b =>
        by_cases ha : a = "" <;> simp [hs1, hs2, ha]
  refine ⟨htype, hdiag, ?merge, ?nomerge⟩
  case merge =>
    intro t1 t2 a b ha hab
    have hm : shouldMerge ⟨t1, SegmentType.dialogue, some a⟩
        ⟨t2, SegmentType.dialogue, some b⟩ = true := by
      rw [(hdiag _ _ rfl rfl)]
      exact ⟨a, b, rfl, rfl, ha, hab⟩
    simp only [groupSegments, groupLoop, hm, if_pos]
    simp [filterShortFragments, Segment.is_dialogue]
  case nomerge =>
    intro t1 t2 sp1 sp2 hm
    simp only [groupSegments, groupLoop, hm]
    simp [filterShortFragments, Segment.is_dialogue]

/-- Witness for `c6_amended`: two dialogue segments with the equal
non-empty speaker `John` merge into one space-joined segment. -/
theorem c6_amended_witness :
    ("John" : String) ≠ "" ∧ pyLower "John" = pyLower "John" ∧
    groupSegments [⟨"Hello there,", SegmentType.dialogue, some "John"⟩,
                   ⟨"how are you?", SegmentType.dialogue, some "John"⟩] =
      [⟨mergeText "Hello there," "how are you?", SegmentType.dialogue,
        some "John"⟩] :=
  ⟨by decide, rfl, c6_amended.2.2.1 "Hello there," "how are you?" "John" "John"
    (by decide) rfl⟩

/-- Lists are preserved below `n` by `List.set` at an index at least `n`. -/
theorem take_set_of_le {α : Type} (l : List α) (i : Nat) (a : α) (n : Nat)
    (h : n ≤ i) : (l.set i a).take n = l.take n := by
  induction l generalizing i n with
  | nil => simp
  | cons c t ih =>
    cases i with
    | zero =>
      have : n = 0 := Nat.le_zero.mp h
      simp [this]
    | succ i' =>
      cases n with
      | zero => simp
      | succ m =>
        simp only [List.set_cons_succ, List.take_succ_cons]
        rw [ih i' m (Nat.le_of_succ_le_succ h)]

/-- The heap-level grouping loop never writes below `n` provided the
current group's reference (if any) is at least `n` and `n` is within the
store. -/
theorem groupLoopH_take (n : Nat) :
    ∀ (refs : List Nat) (store : List Segment) (cur : Option Nat)
      (acc : List Nat),
      n ≤ store.length → (∀ g, cur = some g → n ≤ g) →
      ((groupLoopH store refs cur acc).1).take n = store.take n := by
  intro refs
  induction refs with
  | nil =>
    intro store cur acc _ _
    rfl
  | cons r rest ih =>
    intro store cur acc hn hcur
    cases cur with
    | none =>
      simp only [groupLoopH]
      rw [ih _ _ _ (by simp; omega) (by intro g hg; cases hg; exact hn)]
      exact List.take_append_of_le_length hn
    | some g =>
      simp only [groupLoopH]
      by_cases hm : shouldMerge (store.getD g dfltSegment)
          (store.getD r dfltSegment) = true
      · rw [if_pos hm]
        rw [ih _ _ _ (by simp [hn]) (fun g' hg' => by
          cases hg'; exact hcur g rfl)]
        exact take_set_of_le store g _ n (hcur g rfl)
      · rw [if_neg hm]
        rw [ih _ _ _ (by simp; omega) (by intro g' hg'; cases hg'; exact hn)]
        exact List.take_append_of_le_length hn

/-- Claim C10: `group_segments` never mutates its input.  In the
store-passing embedding, running `groupSegmentsH` leaves every
pre-existing heap cell — in particular every input `Segment` object,
with its text, type and speaker — unchanged: only freshly allocated
group objects are ever written. -/
theorem c10_group_segments_frame (store : List Segment) (input : List Nat) :
    ((groupSegmentsH store input).1).take store.length = store := by
  cases input with
  | nil => simp [groupSegmentsH]
  | cons r rs =>
    have h := groupLoopH_take store.length (r :: rs) store none []
      le_rfl (by intro g hg; cases hg)
    calc ((groupSegmentsH store (r :: rs)).1).take store.length
        = ((groupLoopH store (r :: rs) none []).1).take store.length := rfl
      _ = store.take store.length := h
      _ = store := List.take_length store

/-- Claim C3, counterexample, refuting the claim as stated on two
counts.  (a) The fallback function: on the AI-throw path with descriptor
`his wife`, `identify_speaker` returns the registry's own
`_normalize_name` capitalization `His Wife`, whereas the claim's
`SpeakerNormalizer.normalize("his wife")` (strip honorific, last word —
`_normalize_speaker_name` of the parser) is `wife`.  (b) The registry
state: an AI response that is valid JSON with a `registry` field but NO
`speaker` field makes `identify_speaker` return the fallback while the
registry IS MODIFIED — the claim requires it left exactly unchanged. -/
theorem c3_counterexample :
    identifySpeaker (some (Except.error ())) [] 0 "his wife" =
      (JValue.str "His Wife", [], true) ∧
    normalizeSpeakerName "his wife" = "wife" ∧
    ("His Wife" : String) ≠ "wife" ∧
    identifySpeaker (some (Except.ok (some c3AIResponse))) [] 0 "his wife" =
      (JValue.str "His Wife",
       [("Mrs. Bennet", ⟨"Mrs. Bennet", ["his wife"], "Mother", 1⟩)], true) ∧
    ([("Mrs. Bennet",
       (⟨"Mrs. Bennet", ["his wife"], "Mother", 1⟩ : Character))] : List _) ≠
      [] := by
  refine ⟨rfl, by decide, by decide, rfl, by decide⟩

/-- Claim C3, amended: for a descriptor whose fast-path lookup misses,
if the AI call throws, or returns non-JSON, or returns JSON carrying
neither of the expected fields (`speaker`, `registry`), then
`identify_speaker` returns the registry's own
`_normalize_name(descriptor)` — word-by-word capitalization
(`normalizeName`), NOT `SpeakerNormalizer.normalize`, from which it
differs (see `c3_counterexample`) — leaves the registry exactly
unchanged, and never raises (the embedding is total, mirroring the
catch-all `except`).  When a `registry` field IS present it is applied
even if `speaker` is missing. -/
theorem c3_amended (chars : List (String × Character)) (curCh : Int)
    (d : String) (hmiss : getCanonicalName chars d = none) :
    identifySpeaker (some (Except.error ())) chars curCh d =
      (JValue.str (normalizeName d), chars, true) ∧
    identifySpeaker (some (Except.ok none)) chars curCh d =
      (JValue.str (normalizeName d), chars, true) ∧
    ∀ j, lacksExpectedFields j →
      identifySpeaker (some (Except.ok (some j))) chars curCh d =
        (JValue.str (normalizeName d), chars, true) := by
  refine ⟨?thrown, ?nonjson, ?missing⟩
  case thrown => rw [identifySpeaker, hmiss]; rfl
  case nonjson => rw [identifySpeaker, hmiss]; rfl
  case missing =>
    intro j hj
    rw [identifySpeaker, hmiss]
    cases j with
    | obj fs =>
      obtain ⟨hs, hr⟩ := hj
      simp only [identifySlow, updateFromAI, jGet, hr, hs, Option.getD,
        updateEntries, if_pos]
    | null => rfl
    | bool b => rfl
    | num n => rfl
    | str s => rfl
    | arr xs => rfl

/-- Witness for `c3_amended` at the empty registry and descriptor
`bob`. -/
theorem c3_amended_witness :
    getCanonicalName [] "bob" = none ∧
    identifySpeaker (some (Except.error ())) [] 0 "bob" =
      (JValue.str (normalizeName "bob"), [], true) :=
  ⟨rfl, (c3_amended [] 0 "bob" rfl).1⟩

/-- When some stored entry matches the descriptor case-insensitively,
the fast lookup returns the canonical name of the first such entry. -/
theorem getCanonicalName_of_matches (d : String) :
    ∀ chars : List (String × Character), (∃ p ∈ chars, matchesEntry d p) →
      ∃ c, getCanonicalName chars d = some c ∧
        ∃ p ∈ chars, p.1 = c ∧ matchesEntry d p := by
  intro chars
  induction chars with
  | nil => rintro ⟨p, hp, _⟩; cases hp
  | cons q rest ih =>
    intro hex
    by_cases hq1 : pyLower q.1 = pyLower d
    · refine ⟨q.1, ?_, q, List.mem_cons_self q rest, rfl, Or.inl hq1⟩
      simp [getCanonicalName, List.findSome?, hq1]
    · by_cases hq2 : q.2.aliases.any (fun a => pyLower a = pyLower d) = true
      · refine ⟨q.1, ?_, q, List.mem_cons_self q rest, rfl, ?_⟩
        · simp [getCanonicalName, List.findSome?, hq1, hq2]
        · right
          simpa [List.any_eq_true] using hq2
      · have hqno : ¬ matchesEntry d q := by
          intro hm
          cases hm with
          | inl h => exact hq1 h
          | inr h =>
            exact hq2 (by simpa [List.any_eq_true] using h)
        have hex' : ∃ p ∈ rest, matchesEntry d p := by
          obtain ⟨p, hp, hmp⟩ := hex
          cases List.mem_cons.mp hp with
          | inl h => exact absurd (h ▸ hmp) hqno
          | inr h => exact ⟨p, h, hmp⟩
        obtain ⟨c, hc, p, hp, hpc, hmp⟩ := ih hex'
        refine ⟨c, ?_, p, List.mem_cons_of_mem q hp, hpc, hmp⟩
        simpa [getCanonicalName, List.findSome?, hq1, hq2] using hc
  
/-- Claim C4, amended: if the descriptor case-insensitively equals a
stored canonical name or any stored alias, then — provided the canonical
name of the first matching entry is non-empty (Python's `if canonical:`
truthiness test sends an empty one to the slow path) —
`identify_speaker` returns that canonical name immediately, without
invoking the AI collaborator's `generate` and without modifying the
registry. -/
theorem c4_amended (ai : Option (Except Unit (Option JValue)))
    (chars : List (String × Character)) (curCh : Int) (d : String)
    (h : ∃ p ∈ chars, matchesEntry d p) :
    ∃ c, getCanonicalName chars d = some c ∧
      (∃ p ∈ chars, p.1 = c ∧ matchesEntry d p) ∧
      (c ≠ "" → identifySpeaker ai chars curCh d =
        (JValue.str c, chars, false)) := by
  obtain ⟨c, hc, hp⟩ := getCanonicalName_of_matches d chars h
  refine ⟨c, hc, hp, fun hne => ?_⟩
  simp only [identifySpeaker, hc]
  rw [if_pos hne]

/-- Witness for `c4_amended`: the descriptor `HIS WIFE` matches the
stored alias `his wife` of `Mrs. Bennet`, who is returned with no AI
call and no registry change. -/
theorem c4_amended_witness :
    (∃ p ∈ bennetRegistry, matchesEntry "HIS WIFE" p) ∧
    identifySpeaker none bennetRegistry 0 "HIS WIFE" =
      (JValue.str "Mrs. Bennet", bennetRegistry, false) := by
  have hmatch : ∃ p ∈ bennetRegistry, matchesEntry "HIS WIFE" p := by
    refine ⟨_, List.mem_cons_self _ _, Or.inr ?_⟩
    exact ⟨"his wife", by decide, rfl⟩
  obtain ⟨c, hc, _, himm⟩ :=
    c4_amended none bennetRegistry 0 "HIS WIFE" hmatch
  have hceq : c = "Mrs. Bennet" :=
    (Option.some.inj (hc.symm.trans
      (rfl : getCanonicalName bennetRegistry "HIS WIFE" = some "Mrs. Bennet")))
  refine ⟨hmatch, ?_⟩
  rw [← hceq]
  exact himm (by rw [hceq]; decide)

/-- Claim C4, counterexample: with a stored entry whose canonical name is
the empty string, the descriptor `""` case-insensitively equals a stored
canonical name, yet `identify_speaker` proceeds to the slow path and the
AI collaborator IS invoked (third component `true`). -/
theorem c4_counterexample :
    matchesEntry "" ("", (⟨"", [], "", 0⟩ : Character)) ∧
    (identifySpeaker (some (Except.ok none)) [("", ⟨"", [], "", 0⟩)] 0
        "").2.2 = true :=
  ⟨Or.inl rfl, rfl⟩

/-- Decoding an encoded string list is the identity. -/
theorem decodeStrs_map_str (l : List String) :
    decodeStrs (l.map JValue.str) = some l := by
  induction l with
  | nil => rfl
  | cons a t ih =>
    simp only [List.map_cons, decodeStrs, ih]
    rfl

/-- Decoding an encoded character is the identity. -/
theorem characterFromDict_toDict (c : Character) :
    characterFromDict (characterToDict c) = some c := by
  have h0 : ("canonical_name" == "canonical_name") = true := rfl
  have h1 : ("aliases" == "canonical_name") = false := rfl
  have h1b : ("aliases" == "aliases") = true := rfl
  have h2 : ("context" == "canonical_name") = false := rfl
  have h3 : ("context" == "aliases") = false := rfl
  have h3b : ("context" == "context") = true := rfl
  have h4 : ("first_seen_chapter" == "canonical_name") = false := rfl
  have h5 : ("first_seen_chapter" == "aliases") = false := rfl
  have h6 : ("first_seen_chapter" == "context") = false := rfl
  have h6b : ("first_seen_chapter" == "first_seen_chapter") = true := rfl
  simp only [characterFromDict, characterToDict, jGet, List.lookup, h0, h1,
    h1b, h2, h3, h3b, h4, h5, h6, h6b, decodeStrList, decodeStrs_map_str,
    Option.some_bind, List.length_cons, List.length_nil]
  rfl

/-- Claim C9: serializing a registry with `to_dict` and loading the
result with `from_dict` restores a characters mapping equal to the
original — same canonical names and, per character, the same
`canonical_name`, `aliases`, `context` and `first_seen_chapter`. -/
theorem c9_roundtrip (chars : List (String × Character)) :
    registryFromDict (registryToDict chars) = some chars := by
  induction chars with
  | nil => rfl
  | cons p rest ih =>
    simp only [registryToDict, List.map_cons, registryFromDict,
      characterFromDict_toDict] at ih ⊢
    simp [ih]

/-- Claim C8, counterexample: for the raw descriptor `"Mr. "` stripping
the honorific leaves nothing, but the function returns the stripped
original `"Mr."` — not the original descriptor `"Mr. "`. -/
theorem c8_counterexample :
    pyStrip (stripHonorific "Mr. ") = "" ∧
    normalizeSpeakerName "Mr. " ≠ "Mr. " ∧
    normalizeSpeakerName "Mr. " = "Mr." := by
  refine ⟨by decide, by decide, by decide⟩

/-- Claim C8, amended: the normalizer strips one leading honorific
(Mr./Mrs./Miss/Ms./Dr./Sir/Lady, case-insensitive) when it is followed
by whitespace; if stripping leaves nothing it returns the original
descriptor TRIMMED OF SURROUNDING WHITESPACE; if multiple words remain
it returns only the last word; and the three example equations hold. -/
theorem c8_amended :
    normalizeSpeakerName "Mr. Bennet" = "Bennet" ∧
    normalizeSpeakerName "his wife" = "wife" ∧
    normalizeSpeakerName "Lady Catherine" = "Catherine" ∧
    (∀ s : String, stripHonorific ("Mr. " ++ s) = ⟨s.data.dropWhile isPyWs⟩) ∧
    (∀ s : String, pyStrip (stripHonorific s) = "" →
      normalizeSpeakerName s = pyStrip s) ∧
    (∀ s : String, 2 ≤ (pySplitWs (pyStrip (stripHonorific s))).length →
      normalizeSpeakerName s =
        pyStrip ((pySplitWs (pyStrip (stripHonorific s))).getLastD "")) := by
  refine ⟨by decide, by decide, by decide, ?strip, ?empty, ?last⟩
  case strip =>
    intro s
    have hdata : ("Mr. " ++ s).data = 'M' :: 'r' :: '.' :: ' ' :: s.data := by
      have h2 : ("Mr. " ++ s).data = "Mr. ".data ++ s.data :=
        String.data_append _ _
      simp only [h2]
      rfl
    simp only [stripHonorific, honorifics, List.findSome?, hdata]
    rfl
  case empty =>
    intro s h
    rw [normalizeSpeakerName, if_pos h]
  case last =>
    intro s h
    rw [normalizeSpeakerName]
    have hne : pyStrip (stripHonorific s) ≠ "" := by
      intro h0
      rw [h0] at h
      simp [pySplitWs, splitWsAux] at h
    rw [if_neg hne]
    cases hp : pySplitWs (pyStrip (stripHonorific s)) with
    | nil => rw [hp] at h; simp at h
    | cons w rest =>
      cases rest with
      | nil => rw [hp] at h; simp at h
      | cons w2 rest2 => rfl

/-- Witness for `c8_amended`: at `"Mr. "` stripping leaves nothing and
the trimmed original is returned. -/
theorem c8_amended_witness :
    pyStrip (stripHonorific "Mr. ") = "" ∧
    normalizeSpeakerName "Mr. " = pyStrip "Mr. " :=
  ⟨by decide, c8_amended.2.2.2.2.1 "Mr. " (by decide)⟩

/-- Claim C1, evaluation at the failing input (the paragraph of the
parser's own test `test_parse_paragraph_with_dialogue`): the attribution
clause `said John.` is skipped by `_parse_paragraph` — it appears in no
emitted segment — where the test (and the claim) require the narration
`said John. She smiled.` to be retained. -/
theorem c1_attribution_dropped :
    parseParagraph c1Paragraph =
      [⟨"He walked in.", SegmentType.narration, none⟩,
       ⟨"Hello there,", SegmentType.dialogue, some "John"⟩,
       ⟨"She smiled.", SegmentType.narration, none⟩] ∧
    (parseParagraph c1Paragraph).all
      (fun s => !(listIsInfixOf "said John".data s.text.data)) = true := by
  refine ⟨by decide, by decide⟩

/-- Claim C2, evaluation at the failing input (the paragraph of the
parser's own test `test_empty_or_whitespace_dialogue_filtered`): the
quoted span `"    ,"` — empty after trimming whitespace and the
punctuation set — IS surfaced as a Dialogue segment: `_parse_paragraph`
contains no such filter. -/
theorem c2_meaningless_dialogue_emitted :
    parseParagraph c2Paragraph =
      [⟨"Text before.", SegmentType.narration, none⟩,
       ⟨"    ,", SegmentType.dialogue, some "someone"⟩,
       ⟨"actual dialogue here.", SegmentType.dialogue, some "someone"⟩] ∧
    pyStripChars punctuationSet (pyStrip "    ,") = "" := by
  refine ⟨by decide, by decide⟩

/-- Claim C7, evaluation at the failing input: the non-empty content
`My preface.` precedes the first matched chapter boundary (the located
content start is position 0), yet no chapter numbered 0 is emitted and
the preface appears in no chapter — `_parse_chapters` starts every
chapter at a matched heading and discards everything before the first
one. -/
theorem c7_preface_discarded :
    parseBookChapters c7BookText =
      [⟨1, "Chapter 1", [⟨"Body text.", SegmentType.narration, none⟩]⟩] ∧
    findContentStart c7BookText = 0 ∧
    (parseBookChapters c7BookText).all
      (fun ch => decide (ch.number ≠ 0) &&
        ch.segments.all
          (fun s => !(listIsInfixOf "My preface".data s.text.data))) = true := by
  refine ⟨by decide, by decide, by decide⟩
